import Mathlib

/-!
# podle: the feed route of `index.js`

A shallow embedding of the `GET /:version/feed` handler of `index.js`
(lines 90-130) together with the cache configuration of the two cached
routes (lines 73 and 90).

JavaScript is dynamically typed and the handler branches on the truthiness of
query values and of item fields, so values are embedded as a small universe
`JSVal` with the language's truthiness. Promises are embedded by their
settled outcome; exceptions by explicit outcomes of the handler.
-/

set_option autoImplicit false

namespace Podle

/-! ## JavaScript values -/

/-- The JavaScript values that query strings and parsed feeds are made of.
Numbers are restricted to integers; strings are sequences of Unicode scalar
values (no lone surrogates); objects are ordered key/value lists (insertion
order, as in the language). -/
inductive JSVal where
  | undefined
  | null
  | bool (b : Bool)
  | num (n : Int)
  | str (s : String)
  | arr (elems : List JSVal)
  | obj (fields : List (String × JSVal))

instance : Inhabited JSVal := ⟨JSVal.undefined⟩

/-- The errors the language itself raises in the handler. -/
inductive JSError where
  | typeError
  | uriError
  deriving DecidableEq, Repr

/-- The result of `ToBoolean`: `undefined`, `null`, `false`, `0` and the empty
string are falsy, everything else (every array and object, also empty ones) is
truthy. -/
def JSVal.truthy : JSVal → Bool
  | .undefined => false
  | .null => false
  | .bool b => b
  | .num n => decide (n ≠ 0)
  | .str s => decide (s ≠ "")
  | .arr _ => true
  | .obj _ => true

/-- Whether the value is `undefined` or `null`, the two values on which a
property access raises a `TypeError`. -/
def JSVal.isNullish : JSVal → Bool
  | .undefined => true
  | .null => true
  | _ => false

/-- Reading `o[k]` on the fields of an object: the value stored under `k`, or
`undefined` when there is none. -/
def getField : List (String × JSVal) → String → JSVal
  | [], _ => .undefined
  | (k', v) :: rest, k => if k' = k then v else getField rest k

/-- Whether the object has an own field `k`. -/
def hasField : List (String × JSVal) → String → Bool
  | [], _ => false
  | (k', _) :: rest, k => if k' = k then true else hasField rest k

/-- The assignment `o[k] = v` on the fields of an object: an existing field
keeps its position, a new one is appended. -/
def setField : List (String × JSVal) → String → JSVal → List (String × JSVal)
  | [], k, v => [(k, v)]
  | (k', v') :: rest, k, v =>
    if k' = k then (k, v) :: rest else (k', v') :: setField rest k v

/-- Reading `v.k` for a property name `k` that no built-in prototype defines
(every name the handler reads: `items`, `meta`, `title`, `message`,
`enclosures`, `media:content`): a `TypeError` on `undefined` and `null`, the
field on an object, `undefined` on every other value. -/
def getProp (v : JSVal) (k : String) : Except JSError JSVal :=
  match v with
  | .undefined => .error .typeError
  | .null => .error .typeError
  | .obj fs => .ok (getField fs k)
  | _ => .ok .undefined

/-! ## `decodeURIComponent` and the decode guard -/

/-- The value of a hexadecimal digit. -/
def hexVal (c : Char) : Option Nat :=
  if '0' ≤ c ∧ c ≤ '9' then some (c.toNat - '0'.toNat)
  else if 'a' ≤ c ∧ c ≤ 'f' then some (c.toNat - 'a'.toNat + 10)
  else if 'A' ≤ c ∧ c ≤ 'F' then some (c.toNat - 'A'.toNat + 10)
  else none

/-- One unit of a percent-encoded string: a character standing for itself, or
the octet of an escape `%XX`. -/
inductive Tok where
  | lit (c : Char)
  | byte (b : Nat)

/-- Splitting a string into units. Every `%` must be followed by two
hexadecimal digits, otherwise the decoding raises a `URIError`. -/
def tokenize : List Char → Except JSError (List Tok)
  | [] => .ok []
  | c :: rest =>
    if c = '%' then
      match rest with
      | h1 :: h2 :: rest' =>
        match hexVal h1, hexVal h2 with
        | some a, some b =>
          match tokenize rest' with
          | .ok ts => .ok (Tok.byte (16 * a + b) :: ts)
          | .error e => .error e
        | _, _ => .error .uriError
      | _ => .error .uriError
    else
      match tokenize rest with
      | .ok ts => .ok (Tok.lit c :: ts)
      | .error e => .error e

/-- Whether the octet is a UTF-8 continuation octet `10xxxxxx`. -/
def isCont (b : Nat) : Bool := decide (0x80 ≤ b ∧ b < 0xC0)

/-- Assembling the decoded string: an octet below `0x80` is the character
itself; a leading octet announces one to three continuation octets, each of
which must be an escape, and the sequence must be the UTF-8 encoding of a
Unicode scalar value (shortest form, no surrogate, at most `0x10FFFF`);
anything else raises a `URIError`. -/
def assemble : List Tok → Except JSError (List Char)
  | [] => .ok []
  | Tok.lit c :: rest =>
    match assemble rest with
    | .ok cs => .ok (c :: cs)
    | .error e => .error e
  | Tok.byte b :: rest =>
    if b < 0x80 then
      match assemble rest with
      | .ok cs => .ok (Char.ofNat b :: cs)
      | .error e => .error e
    else if 0xC0 ≤ b ∧ b < 0xE0 then
      match rest with
      | Tok.byte b1 :: rest' =>
        let cp := (b % 0x20) * 0x40 + b1 % 0x40
        if isCont b1 ∧ 0x80 ≤ cp then
          match assemble rest' with
          | .ok cs => .ok (Char.ofNat cp :: cs)
          | .error e => .error e
        else .error .uriError
      | _ => .error .uriError
    else if 0xE0 ≤ b ∧ b < 0xF0 then
      match rest with
      | Tok.byte b1 :: Tok.byte b2 :: rest' =>
        let cp := (b % 0x10) * 0x1000 + (b1 % 0x40) * 0x40 + b2 % 0x40
        if isCont b1 ∧ isCont b2 ∧ 0x800 ≤ cp ∧ ¬ (0xD800 ≤ cp ∧ cp ≤ 0xDFFF) then
          match assemble rest' with
          | .ok cs => .ok (Char.ofNat cp :: cs)
          | .error e => .error e
        else .error .uriError
      | _ => .error .uriError
    else if 0xF0 ≤ b ∧ b < 0xF8 then
      match rest with
      | Tok.byte b1 :: Tok.byte b2 :: Tok.byte b3 :: rest' =>
        let cp := (b % 0x08) * 0x40000 + (b1 % 0x40) * 0x1000 + (b2 % 0x40) * 0x40 + b3 % 0x40
        if isCont b1 ∧ isCont b2 ∧ isCont b3 ∧ 0x10000 ≤ cp ∧ cp ≤ 0x10FFFF then
          match assemble rest' with
          | .ok cs => .ok (Char.ofNat cp :: cs)
          | .error e => .error e
        else .error .uriError
      | _ => .error .uriError
    else .error .uriError

/-- The built-in `decodeURIComponent`: every escape sequence is replaced by the
character it encodes, once; a malformed sequence raises a `URIError`. -/
def decodeURIComponent (s : String) : Except JSError String :=
  match tokenize s.toList with
  | .error e => .error e
  | .ok ts =>
    match assemble ts with
    | .ok cs => .ok (String.mk cs)
    | .error e => .error e

/-- The test `url.match(/^https?%3A%2F%2F/i)`: the string starts with
`http%3A%2F%2F` or `https%3A%2F%2F`, letters compared without regard to ASCII
case. -/
def encodedSchemeMatch (s : String) : Bool :=
  let cs := s.toList.map Char.toLower
  "http%3a%2f%2f".toList.isPrefixOf cs || "https%3a%2f%2f".toList.isPrefixOf cs

/-- Lines 92-95: the URL that is used, from the raw query value. -/
def decodeGuard (raw : String) : Except JSError String :=
  if encodedSchemeMatch raw then decodeURIComponent raw else .ok raw

/-! ## The feed route -/

/-- The query values the feed handler reads (`req.query`); a parameter that
is not given is `undefined`. -/
structure Query where
  url : JSVal
  debug : JSVal
  json : JSVal
  size : JSVal

/-- A request to `/:version/feed`: the version segment (`req.params.version`)
and the query. -/
structure Request where
  version : String
  query : Query

/-- What is sent: a rendered view with its locals (`res.render`) or a value
serialized as JSON (`res.json`). -/
inductive Body where
  | render (view : String) (locals : JSVal)
  | json (value : JSVal)

/-- A response: its status code and what is sent. -/
structure Response where
  status : Nat
  body : Body

/-- Modelled from the spec: the Fetcher (`getRSSItem` of `./lib/get-rss-item`,
which is not part of the sources) takes a URL and either yields a feed result,
an object, or fails with an error. -/
inductive FetchOutcome where
  | resolved (result : List (String × JSVal))
  | rejected (err : JSVal)

/-- How the handling of a request ends: a response is sent; the handler throws
(the framework then answers by its default error handler, status 500); or a
callback of the promise throws, the promise the handler returned is rejected
and nothing is sent. -/
inductive Outcome where
  | responded (r : Response)
  | thrown (e : JSError)
  | unanswered (e : JSError)

/-- The observable behaviour of the handler on a request: the URLs the Fetcher
was called with, and how the handling ends. -/
structure Run where
  fetched : List String
  outcome : Outcome

/-- The body of the callback of line 104 on one item: a `TypeError` when the
item is `undefined` or `null`; on an object, `media:content` is assigned the
value of `enclosures` when `enclosures` is truthy and `media:content` is not;
any other value has neither property and is left alone. -/
def normalizeItem (item : JSVal) : Except JSError JSVal :=
  match item with
  | .undefined => .error .typeError
  | .null => .error .typeError
  | .obj fs =>
    if (getField fs "enclosures").truthy && !(getField fs "media:content").truthy then
      .ok (.obj (setField fs "media:content" (getField fs "enclosures")))
    else .ok (.obj fs)
  | v => .ok v

/-- The callback applied to the elements in order. -/
def forEachItem : List JSVal → Except JSError (List JSVal)
  | [] => .ok []
  | x :: rest =>
    match normalizeItem x with
    | .error e => .error e
    | .ok y =>
      match forEachItem rest with
      | .ok ys => .ok (y :: ys)
      | .error e => .error e

/-- The call `items.items.forEach(...)` of lines 104-108: a `TypeError` unless
the value is an array. -/
def normalizeItems (v : JSVal) : Except JSError JSVal :=
  match v with
  | .arr l =>
    match forEachItem l with
    | .ok l' => .ok (.arr l')
    | .error e => .error e
  | _ => .error .typeError

/-- Lines 101-111: the normalization of a fetched feed result, with the URL
that was fetched. -/
def normalize (req : Request) (url : String) (items : List (String × JSVal)) :
    Except JSError (List (String × JSVal)) :=
  let items1 := setField items "size"
    (if req.query.size.truthy then req.query.size else .str "full")
  let items2 := setField items1 "url" (.str url)
  match normalizeItems (getField items2 "items") with
  | .error e => .error e
  | .ok its =>
    let items3 := setField items2 "items" its
    let items4 := setField items3 "layout" (.str req.version)
    match getProp (getField items4 "meta") "title" with
    | .error e => .error e
    | .ok t => .ok (setField items4 "title" t)

/-- Lines 97-115: the callback for a fetched feed result. -/
def onFulfilled (req : Request) (url : String) (items : List (String × JSVal)) : Outcome :=
  let shoudDebug := req.query.debug.truthy
  let shoudJson := req.query.json.truthy
  match normalize req url items with
  | .error e => .unanswered e
  | .ok items' =>
    if shoudJson then .responded ⟨200, .json (.obj items')⟩
    else .responded ⟨200, .render (if shoudDebug then "feed-debug" else "feed") (.obj items')⟩

/-- Lines 116-123: the callback for a failed fetch. -/
def onRejected (req : Request) (url : String) (err : JSVal) : Outcome :=
  match getProp err "message" with
  | .error e => .unanswered e
  | .ok m =>
    .responded ⟨400, .render "error"
      (.obj [("message", m), ("url", .str url), ("layout", .str req.version)])⟩

/-- Lines 90-130: the handler of `GET /:version/feed`, given the Fetcher. -/
def feedHandler (fetch : String → FetchOutcome) (req : Request) : Run :=
  if req.query.url.truthy then
    match req.query.url with
    | .str raw =>
      match decodeGuard raw with
      | .error e => ⟨[], .thrown e⟩
      | .ok url =>
        match fetch url with
        | .resolved items => ⟨[url], onFulfilled req url items⟩
        | .rejected err => ⟨[url], onRejected req url err⟩
    | _ => ⟨[], .thrown .typeError⟩
  else
    ⟨[], .responded ⟨400, .render "error"
      (.obj [("message", .str "Invalid RSS URL"), ("layout", .str req.version)])⟩⟩

/-- A route behind `cache.route(ttl)`: its path and the TTL in seconds. -/
structure CachedRoute where
  path : String
  ttl : Nat

/-- Line 73: `app.get('/:version/search', cache.route(3600*24*30), ...)`. -/
def searchRoute : CachedRoute := ⟨"/:version/search", 3600 * 24 * 30⟩

/-- Line 90: `app.get('/:version/feed', cache.route(3600), ...)`. -/
def feedRoute : CachedRoute := ⟨"/:version/feed", 3600⟩

/-- The feed results the data model describes, as far as the handler depends
on it: `items` is an array none of whose elements is `undefined` or `null`,
and `meta` is neither `undefined` nor `null`. -/
def wellFormedFeed (result : List (String × JSVal)) : Bool :=
  (match getField result "items" with
   | .arr l => l.all (fun x => !x.isNullish)
   | _ => false) && !(getField result "meta").isNullish

/-! ## Fields of objects -/

theorem getField_setField_same (fs : List (String × JSVal)) (k : String) (v : JSVal) :
    getField (setField fs k v) k = v := by
  induction fs with
  | nil => simp [setField, getField]
  | cons p rest ih =>
    obtain ⟨k', v'⟩ := p
    by_cases h : k' = k
    · simp [setField, getField, h]
    · simp [setField, getField, h, ih]

theorem getField_setField_ne (fs : List (String × JSVal)) (k k' : String) (v : JSVal)
    (hk : k ≠ k') : getField (setField fs k v) k' = getField fs k' := by
  induction fs with
  | nil => simp [setField, getField, hk]
  | cons p rest ih =>
    obtain ⟨k₀, v₀⟩ := p
    by_cases h : k₀ = k
    · subst h
      simp [setField, getField, hk]
    · by_cases h' : k₀ = k'
      · subst h'
        have hk' : ¬ k₀ = k := h
        simp [setField, getField, hk']
      · simp [setField, getField, h, h', ih]

theorem getField_of_hasField_false (fs : List (String × JSVal)) (k : String)
    (h : hasField fs k = false) : getField fs k = .undefined := by
  induction fs with
  | nil => rfl
  | cons p rest ih =>
    obtain ⟨k', v'⟩ := p
    by_cases hk : k' = k
    · simp [hasField, hk] at h
    · simp [hasField, hk] at h
      simp [getField, hk, ih h]

/-! ## The callback on the items -/

theorem normalizeItem_obj_promote (fs : List (String × JSVal))
    (henc : (getField fs "enclosures").truthy = true)
    (hmc : (getField fs "media:content").truthy = false) :
    normalizeItem (.obj fs) =
      .ok (.obj (setField fs "media:content" (getField fs "enclosures"))) := by
  simp [normalizeItem, henc, hmc]

theorem normalizeItem_obj_keep (fs : List (String × JSVal))
    (h : (getField fs "media:content").truthy = true ∨
      (getField fs "enclosures").truthy = false) :
    normalizeItem (.obj fs) = .ok (.obj fs) := by
  rcases h with h | h <;> simp [normalizeItem, h]

theorem normalizeItem_ok (x : JSVal) (hx : x.isNullish = false) :
    ∃ y, normalizeItem x = .ok y := by
  cases x with
  | undefined => simp [JSVal.isNullish] at hx
  | null => simp [JSVal.isNullish] at hx
  | obj fs =>
    by_cases h : ((getField fs "enclosures").truthy &&
        !(getField fs "media:content").truthy) = true
    · exact ⟨.obj (setField fs "media:content" (getField fs "enclosures")), by
        simp only [normalizeItem, h, if_true]⟩
    · exact ⟨.obj fs, by simp only [normalizeItem, h]; rfl⟩
  | bool b => exact ⟨_, rfl⟩
  | num n => exact ⟨_, rfl⟩
  | str s => exact ⟨_, rfl⟩
  | arr l => exact ⟨_, rfl⟩

theorem forEachItem_ok (l : List JSVal) (hl : ∀ x ∈ l, x.isNullish = false) :
    ∃ l', forEachItem l = .ok l' := by
  induction l with
  | nil => exact ⟨[], rfl⟩
  | cons x rest ih =>
    obtain ⟨y, hy⟩ := normalizeItem_ok x (hl x (List.mem_cons_self _ _))
    obtain ⟨ys, hys⟩ := ih (fun z hz => hl z (List.mem_cons_of_mem _ hz))
    exact ⟨y :: ys, by simp [forEachItem, hy, hys]⟩

theorem forEachItem_pointwise (l l' : List JSVal) (h : forEachItem l = .ok l') :
    l'.length = l.length ∧
      ∀ (i : Nat) (x : JSVal), l[i]? = some x →
        ∃ y, l'[i]? = some y ∧ normalizeItem x = .ok y := by
  induction l generalizing l' with
  | nil =>
    simp [forEachItem] at h
    subst h
    simp
  | cons x rest ih =>
    simp only [forEachItem] at h
    cases hx : normalizeItem x with
    | error e => simp [hx] at h
    | ok y =>
      cases hr : forEachItem rest with
      | error e => simp [hx, hr] at h
      | ok ys =>
        simp [hx, hr] at h
        subst h
        obtain ⟨hlen, hpt⟩ := ih ys hr
        refine ⟨by simp [hlen], ?_⟩
        intro i z hz
        cases i with
        | zero =>
          simp at hz
          subst hz
          exact ⟨y, by simp, hx⟩
        | succ j =>
          simp at hz
          obtain ⟨w, hw, hn⟩ := hpt j z hz
          exact ⟨w, by simpa using hw, hn⟩

theorem getProp_ok (v : JSVal) (k : String) (hv : v.isNullish = false) :
    ∃ t, getProp v k = .ok t := by
  cases v <;> first | (simp [JSVal.isNullish] at hv; done) | exact ⟨_, rfl⟩

/-! ## The normalization -/

theorem wellFormedFeed_iff (result : List (String × JSVal)) :
    wellFormedFeed result = true ↔
      ∃ l, getField result "items" = .arr l ∧ (∀ x ∈ l, x.isNullish = false) ∧
        (getField result "meta").isNullish = false := by
  unfold wellFormedFeed
  cases h : getField result "items" <;> simp

/-- The normalization of a well-formed feed result completes, and yields the
fetched object with `size`, `url`, `items`, `layout` and `title` assigned in
this order. -/
theorem normalize_wellFormed (req : Request) (url : String)
    (result : List (String × JSVal)) (hwf : wellFormedFeed result = true) :
    ∃ l l' t, getField result "items" = .arr l ∧ forEachItem l = .ok l' ∧
      getProp (getField result "meta") "title" = .ok t ∧
      normalize req url result = .ok
        (setField (setField (setField (setField (setField result "size"
          (if req.query.size.truthy then req.query.size else .str "full"))
          "url" (.str url)) "items" (.arr l')) "layout" (.str req.version)) "title" t) := by
  obtain ⟨l, hitems, hl, hmeta⟩ := (wellFormedFeed_iff result).1 hwf
  obtain ⟨l', hl'⟩ := forEachItem_ok l hl
  obtain ⟨t, ht⟩ := getProp_ok _ "title" hmeta
  refine ⟨l, l', t, hitems, hl', ht, ?_⟩
  have h1 : getField (setField (setField result "size"
      (if req.query.size.truthy then req.query.size else .str "full"))
      "url" (.str url)) "items" = .arr l := by
    rw [getField_setField_ne _ _ _ _ (by decide), getField_setField_ne _ _ _ _ (by decide), hitems]
  have h2 : getField (setField (setField (setField (setField result "size"
      (if req.query.size.truthy then req.query.size else .str "full"))
      "url" (.str url)) "items" (.arr l')) "layout" (.str req.version)) "meta"
      = getField result "meta" := by
    rw [getField_setField_ne _ _ _ _ (by decide), getField_setField_ne _ _ _ _ (by decide),
      getField_setField_ne _ _ _ _ (by decide), getField_setField_ne _ _ _ _ (by decide)]
  simp only [normalize, h1, normalizeItems, hl', h2, ht]

/-- The fields that the normalization of a well-formed feed result assigns. -/
theorem normalize_fields (req : Request) (url : String)
    (result : List (String × JSVal)) (hwf : wellFormedFeed result = true) :
    ∃ l l' t out, getField result "items" = .arr l ∧ forEachItem l = .ok l' ∧
      getProp (getField result "meta") "title" = .ok t ∧
      normalize req url result = .ok out ∧
      getField out "size" = (if req.query.size.truthy then req.query.size else .str "full") ∧
      getField out "url" = .str url ∧
      getField out "items" = .arr l' ∧
      getField out "layout" = .str req.version ∧
      getField out "title" = t := by
  obtain ⟨l, l', t, hitems, hl', ht, hn⟩ := normalize_wellFormed req url result hwf
  refine ⟨l, l', t, _, hitems, hl', ht, hn, ?_, ?_, ?_, ?_, ?_⟩
  · rw [getField_setField_ne _ _ _ _ (by decide), getField_setField_ne _ _ _ _ (by decide),
      getField_setField_ne _ _ _ _ (by decide), getField_setField_ne _ _ _ _ (by decide),
      getField_setField_same]
  · rw [getField_setField_ne _ _ _ _ (by decide), getField_setField_ne _ _ _ _ (by decide),
      getField_setField_ne _ _ _ _ (by decide), getField_setField_same]
  · rw [getField_setField_ne _ _ _ _ (by decide), getField_setField_ne _ _ _ _ (by decide),
      getField_setField_same]
  · rw [getField_setField_ne _ _ _ _ (by decide), getField_setField_same]
  · rw [getField_setField_same]

/-! ## The handler -/

/-- With a non-empty string as `url` on which the decode guard yields `u`, the
handler calls the Fetcher once, with `u`, and ends as the callback for the
outcome of the fetch does. -/
theorem feedHandler_fetch (fetch : String → FetchOutcome) (req : Request) (raw u : String)
    (hurl : req.query.url = .str raw) (hne : raw ≠ "") (hdec : decodeGuard raw = .ok u) :
    feedHandler fetch req =
      match fetch u with
      | .resolved items => ⟨[u], onFulfilled req u items⟩
      | .rejected err => ⟨[u], onRejected req u err⟩ := by
  simp only [feedHandler, hurl, JSVal.truthy, hdec]
  simp [hne]

/-! ## Sample inputs -/

/-- A query without parameters. -/
def emptyQuery : Query := ⟨.undefined, .undefined, .undefined, .undefined⟩

/-- A feed result with one item that has two enclosures and no `media:content`,
and one item that has both fields. -/
def sampleFeed : List (String × JSVal) :=
  [("meta", .obj [("title", .str "A podcast")]),
   ("items", .arr
     [.obj [("title", .str "Episode 1"),
            ("enclosures", .arr [.str "http://example.com/1.mp3", .str "http://example.com/1.ogg"])],
      .obj [("title", .str "Episode 2"),
            ("enclosures", .arr [.str "http://example.com/2.mp3"]),
            ("media:content", .arr [.str "http://example.com/2.m4a"])]])]

/-- A Fetcher that yields `sampleFeed` for one URL and fails for every other
one. -/
def sampleFetch (url : String) : FetchOutcome :=
  if url = "http://example.com/feed.xml" then .resolved sampleFeed
  else .rejected (.obj [("message", .str "Not a feed")])

/-- A feed result whose only item has enclosures and an empty string as
`media:content`. -/
def emptyMediaFeed : List (String × JSVal) :=
  [("meta", .obj [("title", .str "A podcast")]),
   ("items", .arr
     [.obj [("enclosures", .arr [.str "http://example.com/1.mp3"]),
            ("media:content", .str "")]])]

/-! ## The claims -/

/-- C1: in the normalization of a fetched feed result, every item of its
`items` sequence that has a sequence `enclosures` and no `media:content` field
has, after the normalization, a `media:content` equal to its `enclosures` (the
same elements in the same order); `enclosures` itself is kept. -/
theorem enclosures_promoted (req : Request) (url : String) (result : List (String × JSVal))
    (l : List JSVal) (i : Nat) (fs : List (String × JSVal)) (es : List JSVal)
    (hwf : wellFormedFeed result = true)
    (hitems : getField result "items" = .arr l)
    (hitem : l[i]? = some (.obj fs))
    (henc : getField fs "enclosures" = .arr es)
    (hmc : hasField fs "media:content" = false) :
    ∃ out l' fs', normalize req url result = .ok out ∧ getField out "items" = .arr l' ∧
      l'.length = l.length ∧ l'[i]? = some (.obj fs') ∧
      getField fs' "media:content" = .arr es ∧ getField fs' "enclosures" = .arr es := by
  obtain ⟨l₀, l', t, out, hitems', hl', -, hn, -, -, hout, -, -⟩ :=
    normalize_fields req url result hwf
  rw [hitems] at hitems'
  cases hitems'
  obtain ⟨hlen, hpt⟩ := forEachItem_pointwise l l' hl'
  obtain ⟨y, hy, hny⟩ := hpt i _ hitem
  have hmc' : getField fs "media:content" = .undefined :=
    getField_of_hasField_false fs _ hmc
  rw [normalizeItem_obj_promote fs (by simp [henc, JSVal.truthy])
    (by simp [hmc', JSVal.truthy])] at hny
  cases hny
  refine ⟨out, l', _, hn, hout, hlen, hy, ?_, ?_⟩
  · rw [getField_setField_same, henc]
  · rw [getField_setField_ne _ _ _ _ (by decide), henc]

/-- Witness of C1 on the first item of `sampleFeed`. -/
theorem enclosures_promoted_witness :
    ∃ out l' fs', normalize ⟨"v4", emptyQuery⟩ "http://example.com/feed.xml" sampleFeed = .ok out ∧
      getField out "items" = .arr l' ∧ l'.length = 2 ∧ l'[0]? = some (.obj fs') ∧
      getField fs' "media:content" =
        .arr [.str "http://example.com/1.mp3", .str "http://example.com/1.ogg"] ∧
      getField fs' "enclosures" =
        .arr [.str "http://example.com/1.mp3", .str "http://example.com/1.ogg"] :=
  enclosures_promoted ⟨"v4", emptyQuery⟩ "http://example.com/feed.xml" sampleFeed
    [.obj [("title", .str "Episode 1"),
            ("enclosures", .arr [.str "http://example.com/1.mp3", .str "http://example.com/1.ogg"])],
      .obj [("title", .str "Episode 2"),
            ("enclosures", .arr [.str "http://example.com/2.mp3"]),
            ("media:content", .arr [.str "http://example.com/2.m4a"])]]
    0 [("title", .str "Episode 1"),
       ("enclosures", .arr [.str "http://example.com/1.mp3", .str "http://example.com/1.ogg"])]
    [.str "http://example.com/1.mp3", .str "http://example.com/1.ogg"]
    (by decide) rfl rfl rfl rfl

/-- C2, as the code has it: in the normalization of a fetched feed result,
every item whose `media:content` is truthy (every array and every object is,
also an empty one), whether or not it has enclosures, and every item whose
`enclosures` is not truthy, is left as it was, so its `media:content` is the
value it had before. -/
theorem media_content_kept (req : Request) (url : String) (result : List (String × JSVal))
    (l : List JSVal) (i : Nat) (fs : List (String × JSVal))
    (hwf : wellFormedFeed result = true)
    (hitems : getField result "items" = .arr l)
    (hitem : l[i]? = some (.obj fs))
    (hkeep : (getField fs "media:content").truthy = true ∨
      (getField fs "enclosures").truthy = false) :
    ∃ out l', normalize req url result = .ok out ∧ getField out "items" = .arr l' ∧
      l'.length = l.length ∧ l'[i]? = some (.obj fs) := by
  obtain ⟨l₀, l', t, out, hitems', hl', -, hn, -, -, hout, -, -⟩ :=
    normalize_fields req url result hwf
  rw [hitems] at hitems'
  cases hitems'
  obtain ⟨hlen, hpt⟩ := forEachItem_pointwise l l' hl'
  obtain ⟨y, hy, hny⟩ := hpt i _ hitem
  rw [normalizeItem_obj_keep fs hkeep] at hny
  cases hny
  exact ⟨out, l', hn, hout, hlen, hy⟩

/-- Witness of C2 on the second item of `sampleFeed`, which has enclosures and
a `media:content`. -/
theorem media_content_kept_witness :
    ∃ out l', normalize ⟨"v4", emptyQuery⟩ "http://example.com/feed.xml" sampleFeed = .ok out ∧
      getField out "items" = .arr l' ∧ l'.length = 2 ∧
      l'[1]? = some (.obj [("title", .str "Episode 2"),
        ("enclosures", .arr [.str "http://example.com/2.mp3"]),
        ("media:content", .arr [.str "http://example.com/2.m4a"])]) :=
  media_content_kept ⟨"v4", emptyQuery⟩ "http://example.com/feed.xml" sampleFeed
    [.obj [("title", .str "Episode 1"),
            ("enclosures", .arr [.str "http://example.com/1.mp3", .str "http://example.com/1.ogg"])],
      .obj [("title", .str "Episode 2"),
            ("enclosures", .arr [.str "http://example.com/2.mp3"]),
            ("media:content", .arr [.str "http://example.com/2.m4a"])]]
    1 [("title", .str "Episode 2"),
       ("enclosures", .arr [.str "http://example.com/2.mp3"]),
       ("media:content", .arr [.str "http://example.com/2.m4a"])]
    (by decide) rfl rfl (Or.inl rfl)

/-- C2 fails as stated: the only item of `emptyMediaFeed` defines
`media:content`, as the empty string, and after the normalization its
`media:content` is its enclosures, not the empty string. -/
theorem media_content_falsy_overwritten :
    ∃ fs out fs', getField emptyMediaFeed "items" = .arr [.obj fs] ∧
      hasField fs "media:content" = true ∧
      getField fs "media:content" = .str "" ∧
      normalize ⟨"v4", emptyQuery⟩ "http://example.com/feed.xml" emptyMediaFeed = .ok out ∧
      getField out "items" = .arr [.obj fs'] ∧
      getField fs' "media:content" = .arr [.str "http://example.com/1.mp3"] ∧
      getField fs' "media:content" ≠ getField fs "media:content" :=
  ⟨[("enclosures", .arr [.str "http://example.com/1.mp3"]), ("media:content", .str "")],
   _, [("enclosures", .arr [.str "http://example.com/1.mp3"]),
       ("media:content", .arr [.str "http://example.com/1.mp3"])],
   rfl, rfl, rfl, rfl, rfl, rfl, fun h => JSVal.noConfusion h⟩

/-- C3, as the code has it: for every non-empty string as `url`, when it starts
with the encoded scheme and its escapes are well formed, the Fetcher is called
with the value decoded once; when it does not start with the encoded scheme,
the Fetcher is called with the value itself. -/
theorem decode_guard_fetched (fetch : String → FetchOutcome) (req : Request) (raw : String)
    (hurl : req.query.url = .str raw) (hne : raw ≠ "") :
    (encodedSchemeMatch raw = true → ∀ d, decodeURIComponent raw = .ok d →
      (feedHandler fetch req).fetched = [d]) ∧
    (encodedSchemeMatch raw = false → (feedHandler fetch req).fetched = [raw]) := by
  constructor
  · intro hm d hd
    have hg : decodeGuard raw = .ok d := by simp [decodeGuard, hm, hd]
    rw [feedHandler_fetch fetch req raw d hurl hne hg]
    cases fetch d <;> rfl
  · intro hm
    have hg : decodeGuard raw = .ok raw := by simp [decodeGuard, hm]
    rw [feedHandler_fetch fetch req raw raw hurl hne hg]
    cases fetch raw <;> rfl

/-- Witness of C3: the two examples of the specification, and a value with an
escaped percent sign, which is decoded once only. -/
theorem decode_guard_fetched_witness :
    (feedHandler sampleFetch
      ⟨"v4", ⟨.str "http%3A%2F%2Fexample.com%2Ffeed.xml", .undefined, .undefined, .undefined⟩⟩).fetched
      = ["http://example.com/feed.xml"] ∧
    (feedHandler sampleFetch
      ⟨"v4", ⟨.str "http://example.com/feed.xml", .undefined, .undefined, .undefined⟩⟩).fetched
      = ["http://example.com/feed.xml"] ∧
    (feedHandler sampleFetch
      ⟨"v4", ⟨.str "HTTPS%3a%2f%2Fexample.com%2F%2541", .undefined, .undefined, .undefined⟩⟩).fetched
      = ["HTTPS://example.com/%41"] :=
  ⟨(decode_guard_fetched sampleFetch
      ⟨"v4", ⟨.str "http%3A%2F%2Fexample.com%2Ffeed.xml", .undefined, .undefined, .undefined⟩⟩
      "http%3A%2F%2Fexample.com%2Ffeed.xml" rfl (by decide)).1 rfl
      "http://example.com/feed.xml" rfl,
   (decode_guard_fetched sampleFetch
      ⟨"v4", ⟨.str "http://example.com/feed.xml", .undefined, .undefined, .undefined⟩⟩
      "http://example.com/feed.xml" rfl (by decide)).2 rfl,
   (decode_guard_fetched sampleFetch
      ⟨"v4", ⟨.str "HTTPS%3a%2f%2Fexample.com%2F%2541", .undefined, .undefined, .undefined⟩⟩
      "HTTPS%3a%2f%2Fexample.com%2F%2541" rfl (by decide)).1 rfl
      "HTTPS://example.com/%41" rfl⟩

/-- C3 fails as stated: the non-empty value `http%3A%2F%2F%` starts with the
encoded scheme, its decoding raises a `URIError`, and the Fetcher is handed no
URL at all. -/
theorem malformed_escape_not_fetched :
    encodedSchemeMatch "http%3A%2F%2F%" = true ∧
    decodeURIComponent "http%3A%2F%2F%" = .error .uriError ∧
    (feedHandler sampleFetch
      ⟨"v4", ⟨.str "http%3A%2F%2F%", .undefined, .undefined, .undefined⟩⟩).fetched = [] :=
  ⟨rfl, rfl, rfl⟩

/-- C4: a request without `url`, whatever its version segment and its other
query values, is answered with status 400 and the error view with the message
`Invalid RSS URL` and the version segment as layout, and the Fetcher is not
called. -/
theorem missing_url_answer (fetch : String → FetchOutcome) (req : Request)
    (hurl : req.query.url = .undefined) :
    feedHandler fetch req =
      ⟨[], .responded ⟨400, .render "error"
        (.obj [("message", .str "Invalid RSS URL"), ("layout", .str req.version)])⟩⟩ := by
  simp [feedHandler, hurl, JSVal.truthy]

/-- Witness of C4 on a request with `debug`, `json` and `size` given. -/
theorem missing_url_answer_witness :
    feedHandler sampleFetch ⟨"v3", ⟨.undefined, .str "1", .str "1", .str "small"⟩⟩ =
      ⟨[], .responded ⟨400, .render "error"
        (.obj [("message", .str "Invalid RSS URL"), ("layout", .str "v3")])⟩⟩ :=
  missing_url_answer sampleFetch ⟨"v3", ⟨.undefined, .str "1", .str "1", .str "small"⟩⟩ rfl

/-- C5: when the fetch of the URL `u` fails with an error object, the request
is answered with status 400 and the error view whose message is the
`message` of the error, whose url is `u` and whose layout is the version
segment; the Fetcher was called with `u` only. -/
theorem fetch_failure_answer (fetch : String → FetchOutcome) (req : Request) (raw u : String)
    (efs : List (String × JSVal))
    (hurl : req.query.url = .str raw) (hne : raw ≠ "") (hdec : decodeGuard raw = .ok u)
    (hfail : fetch u = .rejected (.obj efs)) :
    feedHandler fetch req =
      ⟨[u], .responded ⟨400, .render "error"
        (.obj [("message", getField efs "message"), ("url", .str u),
               ("layout", .str req.version)])⟩⟩ := by
  rw [feedHandler_fetch fetch req raw u hurl hne hdec, hfail]
  rfl

/-- Witness of C5 on an encoded URL that `sampleFetch` fails on, with the
`json` flag set. -/
theorem fetch_failure_answer_witness :
    feedHandler sampleFetch
      ⟨"v4", ⟨.str "https%3A%2F%2Fexample.com%2Fnone", .undefined, .str "1", .undefined⟩⟩ =
      ⟨["https://example.com/none"], .responded ⟨400, .render "error"
        (.obj [("message", .str "Not a feed"), ("url", .str "https://example.com/none"),
               ("layout", .str "v4")])⟩⟩ :=
  fetch_failure_answer sampleFetch
    ⟨"v4", ⟨.str "https%3A%2F%2Fexample.com%2Fnone", .undefined, .str "1", .undefined⟩⟩
    "https%3A%2F%2Fexample.com%2Fnone" "https://example.com/none"
    [("message", .str "Not a feed")] rfl (by decide) rfl rfl

/-- C6: when the `json` flag is set and the fetch of the URL `u` yields a feed
result, whatever the `debug` flag, the request is answered with status 200 and
the normalized feed result as JSON, and no view is rendered. The `items` of
that body is the fetched sequence after the promotion of enclosures, item by
item: an item with truthy `enclosures` and no truthy `media:content` has
`media:content` set to its `enclosures` (so the body differs from the raw
result there), an item with a truthy `media:content` or without truthy
`enclosures` is as fetched, and so is an element that is not an object. -/
theorem json_body_normalized (fetch : String → FetchOutcome) (req : Request) (raw u : String)
    (result : List (String × JSVal))
    (hurl : req.query.url = .str raw) (hne : raw ≠ "") (hdec : decodeGuard raw = .ok u)
    (hok : fetch u = .resolved result) (hwf : wellFormedFeed result = true)
    (hjson : req.query.json.truthy = true) :
    ∃ out l l', getField result "items" = .arr l ∧ forEachItem l = .ok l' ∧
      normalize req u result = .ok out ∧ getField out "items" = .arr l' ∧
      feedHandler fetch req = ⟨[u], .responded ⟨200, .json (.obj out)⟩⟩ ∧
      l'.length = l.length ∧
      (∀ (i : Nat) (fs : List (String × JSVal)), l[i]? = some (.obj fs) →
        (getField fs "enclosures").truthy = true →
        (getField fs "media:content").truthy = false →
        l'[i]? = some (.obj (setField fs "media:content" (getField fs "enclosures"))) ∧
        getField (setField fs "media:content" (getField fs "enclosures")) "media:content" =
          getField fs "enclosures" ∧
        getField (setField fs "media:content" (getField fs "enclosures")) "enclosures" =
          getField fs "enclosures") ∧
      (∀ (i : Nat) (fs : List (String × JSVal)), l[i]? = some (.obj fs) →
        ((getField fs "media:content").truthy = true ∨
          (getField fs "enclosures").truthy = false) →
        l'[i]? = some (.obj fs)) ∧
      (∀ (i : Nat) (x : JSVal), l[i]? = some x → (∀ fs, x ≠ .obj fs) → l'[i]? = some x) := by
  obtain ⟨l, l', t, out, hitems, hl', -, hn, -, -, hout, -, -⟩ :=
    normalize_fields req u result hwf
  obtain ⟨hlen, hpt⟩ := forEachItem_pointwise l l' hl'
  refine ⟨out, l, l', hitems, hl', hn, hout, ?_, hlen, ?_, ?_, ?_⟩
  · rw [feedHandler_fetch fetch req raw u hurl hne hdec, hok]
    simp [onFulfilled, hn, hjson]
  · intro i fs hi henc hmc
    obtain ⟨y, hy, hny⟩ := hpt i _ hi
    rw [normalizeItem_obj_promote fs henc hmc] at hny
    cases hny
    exact ⟨hy, getField_setField_same _ _ _, getField_setField_ne _ _ _ _ (by decide)⟩
  · intro i fs hi hkeep
    obtain ⟨y, hy, hny⟩ := hpt i _ hi
    rw [normalizeItem_obj_keep fs hkeep] at hny
    cases hny
    exact hy
  · intro i x hi hx
    obtain ⟨y, hy, hny⟩ := hpt i _ hi
    cases x with
    | obj fs => exact absurd rfl (hx fs)
    | undefined => simp [normalizeItem] at hny
    | null => simp [normalizeItem] at hny
    | bool b => cases hny; exact hy
    | num n => cases hny; exact hy
    | str s => cases hny; exact hy
    | arr es => cases hny; exact hy

/-- Witness of C6 on an encoded URL of `sampleFeed`, with `json` and `debug`
set: the answer is status 200 with a JSON body in which the first item has got
`media:content` equal to its two enclosures, which the fetched item had not,
and the second item has kept its own `media:content`. -/
theorem json_body_normalized_witness :
    feedHandler sampleFetch
        ⟨"v4", ⟨.str "http%3A%2F%2Fexample.com%2Ffeed.xml", .str "1", .str "1", .undefined⟩⟩ =
      ⟨["http://example.com/feed.xml"], .responded ⟨200, .json (.obj
        [("meta", .obj [("title", .str "A podcast")]),
         ("items", .arr
           [.obj [("title", .str "Episode 1"),
                  ("enclosures",
                    .arr [.str "http://example.com/1.mp3", .str "http://example.com/1.ogg"]),
                  ("media:content",
                    .arr [.str "http://example.com/1.mp3", .str "http://example.com/1.ogg"])],
            .obj [("title", .str "Episode 2"),
                  ("enclosures", .arr [.str "http://example.com/2.mp3"]),
                  ("media:content", .arr [.str "http://example.com/2.m4a"])]]),
         ("size", .str "full"),
         ("url", .str "http://example.com/feed.xml"),
         ("layout", .str "v4"),
         ("title", .str "A podcast")])⟩⟩ := by
  obtain ⟨out, l, l', hitems, -, hn, -, hrun, -, -, -, -⟩ :=
    json_body_normalized sampleFetch
      ⟨"v4", ⟨.str "http%3A%2F%2Fexample.com%2Ffeed.xml", .str "1", .str "1", .undefined⟩⟩
      "http%3A%2F%2Fexample.com%2Ffeed.xml" "http://example.com/feed.xml" sampleFeed
      rfl (by decide) rfl rfl (by decide) rfl
  have hout : normalize
      ⟨"v4", ⟨.str "http%3A%2F%2Fexample.com%2Ffeed.xml", .str "1", .str "1", .undefined⟩⟩
      "http://example.com/feed.xml" sampleFeed = .ok
        [("meta", .obj [("title", .str "A podcast")]),
         ("items", .arr
           [.obj [("title", .str "Episode 1"),
                  ("enclosures",
                    .arr [.str "http://example.com/1.mp3", .str "http://example.com/1.ogg"]),
                  ("media:content",
                    .arr [.str "http://example.com/1.mp3", .str "http://example.com/1.ogg"])],
            .obj [("title", .str "Episode 2"),
                  ("enclosures", .arr [.str "http://example.com/2.mp3"]),
                  ("media:content", .arr [.str "http://example.com/2.m4a"])]]),
         ("size", .str "full"),
         ("url", .str "http://example.com/feed.xml"),
         ("layout", .str "v4"),
         ("title", .str "A podcast")] := rfl
  rw [hout] at hn
  cases hn
  exact hrun

/-- C7, as the code has it: when the fetch of the URL `u` yields a feed result,
the request is answered with status 200 and the normalized result, serialized
or rendered; the `size` of that result is the `size` query value when that
value is truthy (a non-empty string) and the string `full` when it is absent
or empty, its `title` is the `title` of the fetched `meta`, its `url` is `u`
and its `layout` is the version segment. -/
theorem normalized_metadata (fetch : String → FetchOutcome) (req : Request) (raw u : String)
    (result : List (String × JSVal))
    (hurl : req.query.url = .str raw) (hne : raw ≠ "") (hdec : decodeGuard raw = .ok u)
    (hok : fetch u = .resolved result) (hwf : wellFormedFeed result = true) :
    ∃ out t, normalize req u result = .ok out ∧
      feedHandler fetch req = ⟨[u], .responded ⟨200,
        if req.query.json.truthy then .json (.obj out)
        else .render (if req.query.debug.truthy then "feed-debug" else "feed") (.obj out)⟩⟩ ∧
      getField out "size" =
        (if req.query.size.truthy then req.query.size else .str "full") ∧
      (req.query.size = .undefined → getField out "size" = .str "full") ∧
      getProp (getField result "meta") "title" = .ok t ∧ getField out "title" = t ∧
      getField out "url" = .str u ∧ getField out "layout" = .str req.version := by
  obtain ⟨l, l', t, out, -, -, ht, hn, hsize, hu, -, hlay, htitle⟩ :=
    normalize_fields req u result hwf
  refine ⟨out, t, hn, ?_, hsize, ?_, ht, htitle, hu, hlay⟩
  · rw [feedHandler_fetch fetch req raw u hurl hne hdec, hok]
    by_cases hj : req.query.json.truthy = true <;> simp [onFulfilled, hn, hj]
  · intro hs
    rw [hsize, hs]
    rfl

/-- Witness of C7 on a request for `sampleFeed` with the size `small`. -/
theorem normalized_metadata_witness :
    ∃ out t, normalize ⟨"v4", ⟨.str "http://example.com/feed.xml", .undefined, .undefined, .str "small"⟩⟩
        "http://example.com/feed.xml" sampleFeed = .ok out ∧
      feedHandler sampleFetch
        ⟨"v4", ⟨.str "http://example.com/feed.xml", .undefined, .undefined, .str "small"⟩⟩ =
        ⟨["http://example.com/feed.xml"], .responded ⟨200,
          if (JSVal.undefined).truthy then .json (.obj out)
          else .render (if (JSVal.undefined).truthy then "feed-debug" else "feed") (.obj out)⟩⟩ ∧
      getField out "size" =
        (if (JSVal.str "small").truthy then JSVal.str "small" else .str "full") ∧
      (JSVal.str "small" = .undefined → getField out "size" = .str "full") ∧
      getProp (getField sampleFeed "meta") "title" = .ok t ∧ getField out "title" = t ∧
      getField out "url" = .str "http://example.com/feed.xml" ∧
      getField out "layout" = .str "v4" :=
  normalized_metadata sampleFetch
    ⟨"v4", ⟨.str "http://example.com/feed.xml", .undefined, .undefined, .str "small"⟩⟩
    "http://example.com/feed.xml" "http://example.com/feed.xml" sampleFeed
    rfl (by decide) rfl rfl (by decide)

/-- C7 fails as stated: with the size query value given as the empty string,
the `size` of the normalized result is `full`, not the value given. -/
theorem empty_size_defaults :
    ∃ out, normalize ⟨"v4", ⟨.str "http://example.com/feed.xml", .undefined, .undefined, .str ""⟩⟩
        "http://example.com/feed.xml" sampleFeed = .ok out ∧
      getField out "size" = .str "full" ∧
      getField out "size" ≠ .str "" :=
  ⟨_, rfl, rfl, fun h => by
    have h' : JSVal.str "full" = JSVal.str "" := h
    simp at h'⟩

/-- C8 fails on the code: a `url` that starts with the encoded scheme and
carries a truncated escape sequence makes the handler throw a `URIError`
before anything is fetched or sent. -/
theorem malformed_url_throws :
    feedHandler sampleFetch
      ⟨"v4", ⟨.str "https%3A%2F%2Fexample.com%2F%E0%A4%A", .undefined, .undefined, .undefined⟩⟩ =
      ⟨[], .thrown .uriError⟩ :=
  rfl

/-- C9: the normalization of a feed result of the data model (`items` an
array of items, `meta` an object) completes, whatever the request and the
URL. -/
theorem normalize_completes (req : Request) (url : String) (result : List (String × JSVal))
    (hwf : wellFormedFeed result = true) :
    ∃ out, normalize req url result = .ok out := by
  obtain ⟨l, l', t, out, -, -, -, hn, -⟩ := normalize_fields req url result hwf
  exact ⟨out, hn⟩

/-- Witness of C9 on `sampleFeed`. -/
theorem normalize_completes_witness :
    wellFormedFeed sampleFeed = true ∧
    ∃ out, normalize ⟨"v2", ⟨.undefined, .str "1", .undefined, .str "small"⟩⟩
      "http://example.com/feed.xml" sampleFeed = .ok out :=
  ⟨by decide, normalize_completes ⟨"v2", ⟨.undefined, .str "1", .undefined, .str "small"⟩⟩
    "http://example.com/feed.xml" sampleFeed (by decide)⟩

/-- C10: the search route is cached for 2,592,000 seconds, which is
`3600*24*30`, thirty days, and the feed route for 3,600 seconds, one hour. -/
theorem cache_ttls :
    searchRoute.ttl = 2592000 ∧ searchRoute.ttl = 3600 * 24 * 30 ∧
    searchRoute.ttl = 30 * (24 * (60 * 60)) ∧
    feedRoute.ttl = 3600 ∧ feedRoute.ttl = 60 * 60 := by
  decide

end Podle
